import Mathlib

/-!
Verification of the core of the `rust-io-uring` repository: a shallow
embedding of the `io_uring` submission-queue bindings, the registration
table, the reactor completion dispatch and park/unpark protocol, and the
async operation futures, together with theorems settling the spec claims.

Machine integers (`u32`, `u64`, `u16`) are modelled as `Nat` with explicit
reduction modulo `2^32` (etc.) where the Rust code relies on wrapping
arithmetic.  Signed results (`i32`) are modelled as `Int`.
-/

/-- Modulus of 32-bit unsigned arithmetic (`2^32`). -/
def M32 : Nat := 4294967296

/-- Wrapping 32-bit addition (`u32::wrapping_add`). -/
def add32 (a b : Nat) : Nat := (a + b) % M32

/-- Wrapping 32-bit subtraction (`u32::wrapping_sub`), assuming both
arguments are already reduced below `2^32`. -/
def sub32 (a b : Nat) : Nat := (a + M32 - b) % M32

/-! ### I/O priority encoding (io-uring-sys/src/submission.rs) -/

/-- Priority level 0-7, from `enum IoPriorityLevel` in
io-uring-sys/src/submission.rs. -/
inductive IoPriorityLevel
  | Level0
  | Level1
  | Level2
  | Level3
  | Level4
  | Level5
  | Level6
  | Level7
deriving DecidableEq, Repr

/-- Numeric value of a level (`l as u8`). -/
def IoPriorityLevel.toU8 : IoPriorityLevel → Nat
  | .Level0 => 0
  | .Level1 => 1
  | .Level2 => 2
  | .Level3 => 3
  | .Level4 => 4
  | .Level5 => 5
  | .Level6 => 6
  | .Level7 => 7

/-- Decoding of a `u8` into a level, from `IoPriorityLevel::try_from`. -/
def IoPriorityLevel.tryFrom (v : Nat) : Option IoPriorityLevel :=
  match v with
  | 0 => some .Level0
  | 1 => some .Level1
  | 2 => some .Level2
  | 3 => some .Level3
  | 4 => some .Level4
  | 5 => some .Level5
  | 6 => some .Level6
  | 7 => some .Level7
  | _ => none

/-- Model of `enum IoPriority` in io-uring-sys/src/submission.rs. -/
inductive IoPriority
  | None
  | Realtime (l : IoPriorityLevel)
  | BestEffort (l : IoPriorityLevel)
  | Idle
deriving DecidableEq, Repr

/-- Encoding into the 16-bit wire value, from
`impl Into<EncodedIoPriority> for IoPriority` (class in the top 3 bits of
the `u16`, level in the low bits). -/
def IoPriority.encode : IoPriority → Nat
  | .None => 0 <<< 13
  | .Realtime l => (1 <<< 13) ||| l.toU8
  | .BestEffort l => (2 <<< 13) ||| l.toU8
  | .Idle => 3 <<< 13

/-- Decoding of a 16-bit wire value, from `IoPriority::try_from`; the Rust
code dispatches on `e.0 >> 13` and decodes the level from `e.0 as u8`. -/
def IoPriority.tryFrom (e : Nat) : Option IoPriority :=
  match e >>> 13 with
  | 0 => some .None
  | 1 => (IoPriorityLevel.tryFrom (e % 256)).map .Realtime
  | 2 => (IoPriorityLevel.tryFrom (e % 256)).map .BestEffort
  | 3 => some .Idle
  | _ => none

/-- Class index of a priority (value of the top 3 bits of the encoding). -/
def IoPriority.classIndex : IoPriority → Nat
  | .None => 0
  | .Realtime _ => 1
  | .BestEffort _ => 2
  | .Idle => 3

/-- Level stored in the low 13 bits of the encoding. -/
def IoPriority.levelBits : IoPriority → Nat
  | .None => 0
  | .Realtime l => l.toU8
  | .BestEffort l => l.toU8
  | .Idle => 0

/-! ### Registration table (tokio-uring-reactor/src/registration.rs) -/

/-- Completion result as stored in a registration
(`struct UringResult { result: i32, flags: u32 }`). -/
structure UringResult where
  result : Int
  flags : Nat
deriving DecidableEq, Repr

/-- State of a registration cell, from `struct Inner` in
tokio-uring-reactor/src/registration.rs: a result slot, the `finished`
flag, the waker slot (wakers are identified by an abstract `Nat` id) and
the optional boxed context. -/
structure RegState (T : Type) where
  result : UringResult
  finished : Bool
  waker : Option Nat
  data : Option T
deriving DecidableEq, Repr

/-- Model of `Registration::poll` (old-futures API): `none` plays the role
of `futures::Async::NotReady`, `some` of `Ready`.  `cur` is the waker of
the currently running task (`futures::task::current()`). -/
def Registration.poll (s : RegState T) (cur : Nat) :
    Option (UringResult × T) × RegState T :=
  match s.data with
  | none => (none, s)
  | some d =>
    if s.finished then
      (some (s.result, d), { s with data := none })
    else
      (none, { s with waker := some cur })

/-- Model of `Registration::<()>::poll_stream_and_reset`: consumes
`finished` by resetting it and yields the result. -/
def Registration.poll_stream_and_reset (s : RegState Unit) (cur : Nat) :
    Option UringResult × RegState Unit :=
  if s.finished then
    (some s.result, { s with finished := false })
  else
    (none, { s with waker := some cur })

/-- Sentinel `user_data` for the timer poll
(`CompletionState::TIMER` in tokio-uring-reactor/src/reactor.rs). -/
def TIMER : Nat := 0x1

/-- Sentinel `user_data` for the park-pipe poll (`CompletionState::PARK`). -/
def PARK : Nat := 0x3

/-- Model of `RawRegistration::into_user_data`: the Rust code turns the
reference-counted cell into its raw address `ptr` and asserts that the
value is nonzero with the low bit clear; a failed assertion panics, which
is modelled as `none`. -/
def RawRegistration.into_user_data (ptr : Nat) : Option Nat :=
  if ptr ≠ 0 ∧ ptr &&& 0x1 = 0 then some ptr else none

/-! ### Submission queue entries (io-uring-sys) -/

/-- Model of `struct SubmissionEntry` (the 64-byte SQE), with the flag
unions flattened to their raw numeric value and the `extra` union reduced
to `buf_index` (the only member the code writes). -/
structure SubmissionEntry where
  opcode : Nat
  flags : Nat
  ioprio : Nat
  fd : Int
  off : Nat
  addr : Nat
  len : Nat
  op_flags : Nat
  user_data : Nat
  buf_index : Nat
deriving DecidableEq, Repr

/-- Model of `SubmissionEntry::clear` (`*self = core::mem::zeroed()`). -/
def SubmissionEntry.clearEntry : SubmissionEntry :=
  { opcode := 0, flags := 0, ioprio := 0, fd := 0, off := 0, addr := 0
    len := 0, op_flags := 0, user_data := 0, buf_index := 0 }

/-- `Operation::Readv as u8`. -/
def OpReadv : Nat := 1

/-- `Operation::Writev as u8`. -/
def OpWritev : Nat := 2

/-- `Operation::PollAdd as u8`. -/
def OpPollAdd : Nat := 6

/-- `PollFlags::IN` bits (`libc::POLLIN` on Linux). -/
def PollFlagsIN : Nat := 1

/-- Model of `SubmissionEntry::poll_add(fd, flags)` for a plain (non-fixed)
file descriptor: fills every field of the entry except `user_data`. -/
def SubmissionEntry.poll_add (e : SubmissionEntry) (fd : Int) (pollFlags : Nat) :
    SubmissionEntry :=
  { e with opcode := OpPollAdd, flags := 0, ioprio := 0, fd := fd, off := 0
           addr := 0, len := 0, op_flags := pollFlags, buf_index := 0 }

/-- Model of `SubmissionEntry::readv` (via the private `iov` helper) for a
plain file descriptor with `IoPriority::None` and default rw-flags, as the
reactor uses it; `iovAddr`/`iovLen` stand for the iovec pointer/count. -/
def SubmissionEntry.readv (e : SubmissionEntry) (fd : Int) (offset : Nat)
    (iovAddr iovLen : Nat) : SubmissionEntry :=
  { e with opcode := OpReadv, flags := 0, ioprio := IoPriority.None.encode
           fd := fd, off := offset, addr := iovAddr, len := iovLen
           op_flags := 0, buf_index := 0 }

/-- Model of `SubmissionEntry::writev`, symmetric to `readv`. -/
def SubmissionEntry.writev (e : SubmissionEntry) (fd : Int) (offset : Nat)
    (iovAddr iovLen : Nat) : SubmissionEntry :=
  { e with opcode := OpWritev, flags := 0, ioprio := IoPriority.None.encode
           fd := fd, off := offset, addr := iovAddr, len := iovLen
           op_flags := 0, buf_index := 0 }

/-! ### Submission queue (io-uring/src/lib.rs) -/

/-- Model of `struct SubmissionQueue`: `k_head` is the kernel-written
head counter, `cached_head` the user-side cache of it, `local_tail` the
staged tail; `sces` is the SQE array (`ring_entries` slots, indexed after
masking).  All counters are free-running `u32` values. -/
structure SubmissionQueue where
  k_head : Nat
  cached_head : Nat
  local_tail : Nat
  ring_mask : Nat
  sces : List SubmissionEntry
deriving DecidableEq, Repr

/-- Model of `SubmissionQueue::refresh_head`: reload the cached head from
the shared counter (acquire load). -/
def SubmissionQueue.refresh_head (q : SubmissionQueue) : SubmissionQueue :=
  { q with cached_head := q.k_head }

/-- Model of `SubmissionQueue::head`: refresh the cache only when the
cheap check against the cached head suggests the ring is full; returns the
(possibly refreshed) cached head together with the updated queue. -/
def SubmissionQueue.headFn (q : SubmissionQueue) : Nat × SubmissionQueue :=
  if q.cached_head ≠ q.local_tail ∧
      (q.cached_head ^^^ q.local_tail) &&& q.ring_mask = 0 then
    let q' := q.refresh_head
    (q'.cached_head, q')
  else
    (q.cached_head, q)

/-- Model of `SubmissionQueue::is_full` (io-uring/src/lib.rs lines
157-161): not empty, yet head and tail point at the same slot. -/
def SubmissionQueue.is_full (q : SubmissionQueue) : Bool × SubmissionQueue :=
  let (head, q') := q.headFn
  (decide (head ≠ q'.local_tail) &&
    decide ((q'.cached_head ^^^ q'.local_tail) &&& q'.ring_mask = 0), q')

/-- Model of `SubmissionQueue::pending_submissions`:
`local_tail - refresh_head()` in wrapping `u32` arithmetic. -/
def SubmissionQueue.pending_submissions (q : SubmissionQueue) :
    Nat × SubmissionQueue :=
  let q' := q.refresh_head
  (sub32 q'.local_tail q'.cached_head, q')

/-- Model of `enum SubmissionError<E>`. -/
inductive SubmissionError (E : Type)
  | QueueFull
  | FillError (e : E)
deriving DecidableEq, Repr

/-- Model of `BulkSubmission::submit_with` (io-uring/src/lib.rs lines
215-227).  The caller's fill closure, which in Rust mutates the cleared
SQE in place and may fail, is modelled as a pure function from the cleared
entry to `Except E SubmissionEntry`. -/
def SubmissionQueue.submit_with (q : SubmissionQueue)
    (f : SubmissionEntry → Except E SubmissionEntry) :
    Except (SubmissionError E) Unit × SubmissionQueue :=
  let (full, q') := q.is_full
  if full then
    (.error .QueueFull, q')
  else
    let ndx := q'.local_tail
    let i := ndx &&& q'.ring_mask
    match f SubmissionEntry.clearEntry with
    | .error e =>
      (.error (.FillError e), { q' with sces := q'.sces.set i SubmissionEntry.clearEntry })
    | .ok entry =>
      (.ok (), { q' with sces := q'.sces.set i entry, local_tail := add32 ndx 1 })

/-! ### Reactor completion dispatch (tokio-uring-reactor/src/reactor.rs) -/

/-- Model of the mutable `struct CompletionState` of the reactor, together
with the park shared state it owns (`unpark::Park`: the atomic `pending`
and `entered` flags). -/
structure CompletionState where
  requeue_timer : Bool
  timer_pending : Bool
  requeue_park : Bool
  active_wait : Nat
  park_pending : Bool
  park_entered : Bool
deriving DecidableEq, Repr

/-- Externally visible effects of completion dispatch: notifying a task
registration with a result, or draining the park pipe
(`Park::clear_event`, a `read` on the pipe's read end). -/
inductive Event
  | notifyReg (user_data : Nat) (result : UringResult)
  | drainParkPipe
deriving DecidableEq, Repr

/-- Model of `CompletionState::handle_completion` (reactor.rs lines
78-102).  `none` models the `panic!("unknown event")` on an unknown odd
`user_data`. -/
def CompletionState.handle_completion (s : CompletionState) (user_data : Nat)
    (result : UringResult) : Option (CompletionState × List Event) :=
  if user_data = 0 then
    some (s, [])
  else
    let s := { s with active_wait := s.active_wait - 1 }
    if user_data &&& 0x1 = 0 then
      some (s, [.notifyReg user_data result])
    else if user_data = TIMER then
      some ({ s with requeue_timer := true, timer_pending := true }, [])
    else if user_data = PARK then
      some ({ s with requeue_park := true }, [.drainParkPipe])
    else
      none

/-- Dispatch behaviour as the specification states it: `user_data = 0` is
ignored; otherwise `active_wait` is decremented and then the sentinels
`TIMER = 1` and `PARK = 3` update the requeue flags (PARK also drains the
pipe), any other odd value is fatal, and any even value notifies the
registration.  Written from the spec wording to compare against
`handle_completion`. -/
def handleCompletionSpec (s : CompletionState) (user_data : Nat)
    (result : UringResult) : Option (CompletionState × List Event) :=
  if user_data = 0 then
    some (s, [])
  else
    let s := { s with active_wait := s.active_wait - 1 }
    if user_data = 1 then
      some ({ s with requeue_timer := true, timer_pending := true }, [])
    else if user_data = 3 then
      some ({ s with requeue_park := true }, [.drainParkPipe])
    else if user_data % 2 = 1 then
      none
    else
      some (s, [.notifyReg user_data result])

/-! ### Reactor inner state (tokio-uring-reactor/src/reactor.rs) -/

/-- Model of the timerfd state the reactor drives
(`timerfd::TimerState`), durations in nanoseconds. -/
inductive TimerState
  | Disarmed
  | Oneshot (d : Nat)
deriving DecidableEq, Repr

/-- Model of `struct Inner`: the ring's submission queue, the completion
state (which owns the park shared state), the timer fd state, and the raw
descriptors of the timer fd and the park pipe's read end.  The completion
queue is not part of the state: the CQEs the kernel has produced are
supplied to `park_inner` as explicit input lists. -/
structure ReactorInner where
  sq : SubmissionQueue
  cs : CompletionState
  timer : TimerState
  timer_fd : Int
  park_fd : Int
deriving DecidableEq, Repr

/-- Model of `Inner::queue_timer_poll`: submit a `PollAdd(IN)` on the
timer fd with `user_data = TIMER`; on success increment `active_wait`.
The `Bool` is `true` on success (`Infallible` fill error). -/
def ReactorInner.queue_timer_poll (s : ReactorInner) : Bool × ReactorInner :=
  let (r, sq') := s.sq.submit_with (E := Empty) fun e =>
    .ok { e.poll_add s.timer_fd PollFlagsIN with user_data := TIMER }
  match r with
  | .error _ => (false, { s with sq := sq' })
  | .ok _ =>
    (true, { s with sq := sq'
                    cs := { s.cs with active_wait := s.cs.active_wait + 1 } })

/-- Model of `Inner::queue_park_read`: submit a `PollAdd(IN)` on the park
pipe's read end with `user_data = PARK`; on success increment
`active_wait`. -/
def ReactorInner.queue_park_read (s : ReactorInner) : Bool × ReactorInner :=
  let (r, sq') := s.sq.submit_with (E := Empty) fun e =>
    .ok { e.poll_add s.park_fd PollFlagsIN with user_data := PARK }
  match r with
  | .error _ => (false, { s with sq := sq' })
  | .ok _ =>
    (true, { s with sq := sq'
                    cs := { s.cs with active_wait := s.cs.active_wait + 1 } })

/-- Error message produced by `sq_full_map_err` in reactor.rs. -/
def sqFullMsg : String := "submission queue full"

/-- Model of `Inner::queue_async_read` (reactor.rs lines 287-303): build a
`Readv` SQE via `submit_with`, mapping a full queue to the I/O error
`"submission queue full"`; on success increment `active_wait`.  `ud` is
the registration's already-validated `user_data` value
(`reg.into_user_data()`). -/
def ReactorInner.queue_async_read (s : ReactorInner) (fd : Int) (offset : Nat)
    (iovAddr iovLen : Nat) (ud : Nat) : Except String Unit × ReactorInner :=
  let (r, sq') := s.sq.submit_with (E := Empty) fun e =>
    .ok { e.readv fd offset iovAddr iovLen with user_data := ud }
  match r with
  | .error _ => (.error sqFullMsg, { s with sq := sq' })
  | .ok _ =>
    (.ok (), { s with sq := sq'
                      cs := { s.cs with active_wait := s.cs.active_wait + 1 } })

/-- Model of `Inner::queue_async_write`, symmetric to `queue_async_read`
with a `Writev` SQE. -/
def ReactorInner.queue_async_write (s : ReactorInner) (fd : Int) (offset : Nat)
    (iovAddr iovLen : Nat) (ud : Nat) : Except String Unit × ReactorInner :=
  let (r, sq') := s.sq.submit_with (E := Empty) fun e =>
    .ok { e.writev fd offset iovAddr iovLen with user_data := ud }
  match r with
  | .error _ => (.error sqFullMsg, { s with sq := sq' })
  | .ok _ =>
    (.ok (), { s with sq := sq'
                      cs := { s.cs with active_wait := s.cs.active_wait + 1 } })

/-- Model of `Inner::queue_async_poll`: a `PollAdd` SQE with the caller's
poll flags. -/
def ReactorInner.queue_async_poll (s : ReactorInner) (fd : Int) (pollFlags : Nat)
    (ud : Nat) : Except String Unit × ReactorInner :=
  let (r, sq') := s.sq.submit_with (E := Empty) fun e =>
    .ok { e.poll_add fd pollFlags with user_data := ud }
  match r with
  | .error _ => (.error sqFullMsg, { s with sq := sq' })
  | .ok _ =>
    (.ok (), { s with sq := sq'
                      cs := { s.cs with active_wait := s.cs.active_wait + 1 } })

/-! ### Park / unpark protocol (reactor.rs, unpark.rs) -/

/-- Model of `struct CompletionEntry` (the 16-byte CQE). -/
structure CompletionEntry where
  user_data : Nat
  res : Int
  flags : Nat
deriving DecidableEq, Repr

/-- Folding `handle_completion` over the CQEs drained in one
`check_completions` pass; `none` models the panic on an unknown odd
`user_data`. -/
def runCompletions : CompletionState → List CompletionEntry →
    Option (CompletionState × List Event)
  | cs, [] => some (cs, [])
  | cs, c :: rest =>
    match cs.handle_completion c.user_data ⟨c.res, c.flags⟩ with
    | none => none
    | some (cs', evs) =>
      match runCompletions cs' rest with
      | none => none
      | some (cs'', evs') => some (cs'', evs ++ evs')

/-- Record of one `io_uring_enter` syscall made by `park_inner`:
`flags` is the raw `EnterFlags` bits (`GETEVENTS = 1`). -/
structure EnterCall where
  to_submit : Nat
  min_complete : Nat
  flags : Nat
deriving DecidableEq, Repr

/-- `EnterFlags::GETEVENTS` bit. -/
def GETEVENTS : Nat := 1

/-- Outcome of a `park_inner` call. -/
inductive ParkOutcome
  | ok (s : ReactorInner)
  | panicked
  | enterFailed (s : ReactorInner)
deriving DecidableEq, Repr

/-- Model of the `Drop` impl of `ParkEntered`: clear `entered`, clear
`pending`. -/
def ReactorInner.parkEnterDrop (s : ReactorInner) : ReactorInner :=
  { s with cs := { s.cs with park_entered := false, park_pending := false } }

/-- Model of `Inner::park_inner` (reactor.rs lines 151-230).  The kernel
side is supplied as oracles: `cqes1` are the CQEs drained by the first
`check_completions`, `cqes2` those drained after `io_uring_enter`, and
`enterOk` tells whether the enter syscall succeeds.  The returned list
records every `io_uring_enter` call made. -/
def ReactorInner.park_inner (s0 : ReactorInner) (wait0 : Bool) (timeout : Option Nat)
    (cqes1 cqes2 : List CompletionEntry) (enterOk : Bool) :
    ParkOutcome × List EnterCall :=
  match runCompletions s0.cs cqes1 with
  | none => (.panicked, [])
  | some (cs1, _) =>
    let s1 : ReactorInner := { s0 with cs := cs1 }
    let received := decide (cqes1 ≠ [])
    let wait1 := if received then false else wait0
    let wait2 := if s1.cs.park_pending then false else wait1
    let s2 : ReactorInner :=
      if wait2 then
        match timeout with
        | some d =>
          { s1 with timer := .Oneshot d
                    cs := { s1.cs with timer_pending := false } }
        | none =>
          if s1.cs.timer_pending then
            { s1 with timer := .Disarmed
                      cs := { s1.cs with timer_pending := false } }
          else s1
      else s1
    let ws3 : Bool × ReactorInner :=
      if wait2 ∧ s2.cs.requeue_timer then
        match s2.queue_timer_poll with
        | (false, s') => (false, s')
        | (true, s') => (wait2, { s' with cs := { s'.cs with requeue_timer := false } })
      else (wait2, s2)
    let wait3 := ws3.1
    let s3 := ws3.2
    let ws4 : Bool × ReactorInner :=
      if wait3 = true ∧ s3.cs.requeue_park then
        match s3.queue_park_read with
        | (false, s') => (false, s')
        | (true, s') => (wait3, { s' with cs := { s'.cs with requeue_park := false } })
      else (wait3, s3)
    let wait4 := ws4.1
    let s4 := ws4.2
    let pending := (s4.sq.pending_submissions).1
    let s5 : ReactorInner := { s4 with sq := (s4.sq.pending_submissions).2 }
    let s6 : ReactorInner := { s5 with cs := { s5.cs with park_entered := true } }
    let allow_wait := !s6.cs.park_pending
    let wait5 := wait4 && allow_wait
    if pending = 0 ∧ wait5 = false then
      (.ok s6.parkEnterDrop, [])
    else
      let call : EnterCall :=
        if wait5 then ⟨pending, 1, GETEVENTS⟩ else ⟨pending, 0, 0⟩
      if enterOk then
        let s7 := s6.parkEnterDrop
        match runCompletions s7.cs cqes2 with
        | none => (.panicked, [call])
        | some (cs2, _) => (.ok { s7 with cs := cs2 }, [call])
      else
        (.enterFailed s6.parkEnterDrop, [call])

/-- Model of `Inner::park`: `park_inner(true, None)`. -/
def ReactorInner.park (s : ReactorInner) (cqes1 cqes2 : List CompletionEntry)
    (enterOk : Bool) : ParkOutcome × List EnterCall :=
  s.park_inner true none cqes1 cqes2 enterOk

/-- Model of `Inner::park_timeout` (reactor.rs lines 236-243): a zero
duration degenerates to `park_inner(false, None)`. -/
def ReactorInner.park_timeout (s : ReactorInner) (d : Nat)
    (cqes1 cqes2 : List CompletionEntry) (enterOk : Bool) :
    ParkOutcome × List EnterCall :=
  if d = 0 then s.park_inner false none cqes1 cqes2 enterOk
  else s.park_inner true (some d) cqes1 cqes2 enterOk

/-! ### Async operation futures (tokio-uring-reactor/src/reactor/) -/

/-- Shallow model of `std::io::Error` as the futures construct it: either
from a raw OS errno (`io::Error::from_raw_os_error`) or another error
carrying a message. -/
inductive IoErrorRepr
  | rawOs (errno : Int)
  | other (msg : String)
deriving DecidableEq, Repr

/-- Model of the boxed `struct Context` of `AsyncRead` / `AsyncWrite`:
the single iovec (address/length), the caller's buffer and file. -/
structure RWContext (T F : Type) where
  iovAddr : Nat
  iovLen : Nat
  buffer : T
  file : F
deriving DecidableEq, Repr

/-- Model of `enum State` of `AsyncRead` / `AsyncWrite`. -/
inductive AsyncRWState (T F : Type)
  | Pending (reg : RegState (RWContext T F))
  | InitFailed (error : IoErrorRepr) (buffer : T) (file : F)
  | Closed
deriving DecidableEq, Repr

/-- Observable outcome of one `poll` of an `AsyncRead` / `AsyncWrite`
future: `NotReady`, `Ready((bytes, buffer, file))`, an error carrying the
buffer and file back, or the `panic!("already finished")`. -/
inductive AsyncRWPoll (T F : Type)
  | notReady
  | ready (bytes : Nat) (buffer : T) (file : F)
  | opError (error : IoErrorRepr) (buffer : T) (file : F)
  | panicked
deriving DecidableEq, Repr

/-- Model of `<AsyncRead as Future>::poll`
(tokio-uring-reactor/src/reactor/async_read.rs lines 112-136): in
`Pending`, poll the registration; on `Ready((r, context))` a negative
`r.result` is converted by `io::Error::from_raw_os_error(-r.result)`. -/
def asyncRead_poll (st : AsyncRWState T F) (cur : Nat) :
    AsyncRWPoll T F × AsyncRWState T F :=
  match st with
  | .Pending reg =>
    match Registration.poll reg cur with
    | (none, reg') => (.notReady, .Pending reg')
    | (some (r, ctx), _) =>
      if r.result < 0 then
        (.opError (.rawOs (-r.result)) ctx.buffer ctx.file, .Closed)
      else
        (.ready r.result.toNat ctx.buffer ctx.file, .Closed)
  | .InitFailed e b f => (.opError e b f, .Closed)
  | .Closed => (.panicked, .Closed)

/-- Model of `<AsyncWrite as Future>::poll` (async_write.rs lines
112-137), identical in structure to `asyncRead_poll`. -/
def asyncWrite_poll (st : AsyncRWState T F) (cur : Nat) :
    AsyncRWPoll T F × AsyncRWState T F :=
  match st with
  | .Pending reg =>
    match Registration.poll reg cur with
    | (none, reg') => (.notReady, .Pending reg')
    | (some (r, ctx), _) =>
      if r.result < 0 then
        (.opError (.rawOs (-r.result)) ctx.buffer ctx.file, .Closed)
      else
        (.ready r.result.toNat ctx.buffer ctx.file, .Closed)
  | .InitFailed e b f => (.opError e b f, .Closed)
  | .Closed => (.panicked, .Closed)

/-- Model of `struct AsyncPoll` (async_poll.rs): the polled fd, the
`active` flag, the poll flags and the reusable empty-context
registration. -/
structure AsyncPollState where
  fd : Int
  active : Bool
  pollFlags : Nat
  registration : RegState Unit
deriving DecidableEq, Repr

/-- Observable outcome of one `poll` of the `AsyncPoll` stream. -/
inductive AsyncPollResult
  | notReady
  | readyFlags (flags : Nat)
  | streamError (error : IoErrorRepr)
deriving DecidableEq, Repr

/-- Model of `<AsyncPoll as Stream>::poll` (async_poll.rs lines 43-63).
`queueResult` stands for the reactor call
`im.pinned().queue_async_poll(..)` in the inactive branch.  In the active
branch the registration is polled via `poll_stream_and_reset`; on a
negative result the code calls `io::Error::from_raw_os_error(r.result)`
(note: without negating), otherwise it decodes the low 16 bits as poll
flags (`PollFlags::from_bits_truncate(r.result as u16)`). -/
def asyncPoll_poll (s : AsyncPollState) (cur : Nat)
    (queueResult : Except String Unit) : AsyncPollResult × AsyncPollState :=
  if !s.active then
    match queueResult with
    | .error e => (.streamError (.other e), s)
    | .ok _ =>
      (.notReady, { s with active := true
                           registration := { s.registration with waker := some cur } })
  else
    match Registration.poll_stream_and_reset s.registration cur with
    | (none, reg') => (.notReady, { s with registration := reg' })
    | (some r, reg') =>
      let s' := { s with active := false, registration := reg' }
      if r.result < 0 then
        (.streamError (.rawOs r.result), s')
      else
        (.readyFlags (r.result.toNat % 65536), s')

/-! ### Concrete sample states used by witnesses -/

/-- Sample completion state: the reactor's initial `CompletionState`
(requeue flags set, nothing pending). -/
def cs0 : CompletionState :=
  { requeue_timer := true, timer_pending := false, requeue_park := true
    active_wait := 0, park_pending := false, park_entered := false }

/-- Sample full submission queue: 4 entries (mask 3), head 0, tail 4. -/
def qFull : SubmissionQueue :=
  { k_head := 0, cached_head := 0, local_tail := 4, ring_mask := 3
    sces := List.replicate 4 SubmissionEntry.clearEntry }

/-- Sample empty submission queue: 4 entries (mask 3), head 0, tail 0. -/
def qEmpty : SubmissionQueue :=
  { k_head := 0, cached_head := 0, local_tail := 0, ring_mask := 3
    sces := List.replicate 4 SubmissionEntry.clearEntry }

/-- Sample reactor with a full submission queue. -/
def innerFull : ReactorInner :=
  { sq := qFull, cs := cs0, timer := .Disarmed, timer_fd := 5, park_fd := 6 }

/-- Sample reactor with a pre-observed unpark (`pending` flag set) and
two staged submissions. -/
def innerUnparked : ReactorInner :=
  { sq := { qFull with local_tail := 2 }, cs := { cs0 with park_pending := true }
    timer := .Disarmed, timer_fd := 5, park_fd := 6 }

/-- Sample fill closure writing `user_data = 42`. -/
def fill42 : SubmissionEntry → Except Unit SubmissionEntry :=
  fun e => .ok { e with user_data := 42 }

/-- The entry `fill42` produces from a cleared SQE. -/
def entry42 : SubmissionEntry :=
  { SubmissionEntry.clearEntry with user_data := 42 }

/-! ### Arithmetic helper lemmas -/

theorem M32_eq_pow : M32 = 2 ^ 32 := by norm_num [M32]

theorem xor_mod_two_pow (a b k : Nat) :
    (a ^^^ b) % 2 ^ k = a % 2 ^ k ^^^ b % 2 ^ k := by
  apply Nat.eq_of_testBit_eq
  intro i
  simp only [Nat.testBit_mod_two_pow, Nat.testBit_xor]
  by_cases h : i < k <;> simp [h]

theorem masked_xor_eq_zero_iff (a b k : Nat) :
    (a ^^^ b) &&& (2 ^ k - 1) = 0 ↔ a % 2 ^ k = b % 2 ^ k := by
  rw [Nat.and_pow_two_sub_one_eq_mod, xor_mod_two_pow, Nat.xor_eq_zero]

theorem sub32_lt (a b : Nat) : sub32 a b < M32 := by
  simp only [sub32, M32]
  omega

theorem sub32_eq_zero_iff (a b : Nat) (ha : a < M32) (hb : b < M32) :
    sub32 a b = 0 ↔ a = b := by
  simp only [sub32, M32] at *
  omega

theorem sub32_elim (a b : Nat) (ha : a < M32) (hb : b < M32) :
    a = (b + sub32 a b) % M32 := by
  simp only [sub32, M32] at *
  omega

theorem sub32_split (a b c : Nat) (ha : a < M32) (hb : b < M32)
    (hc : c < M32) (hle : sub32 b c ≤ sub32 a c) :
    sub32 a b = sub32 a c - sub32 b c := by
  simp only [sub32, M32] at *
  omega

theorem ring_full_iff (h t k : Nat) (hh : h < M32) (ht : t < M32)
    (hk : k ≤ 32) (hd : sub32 t h ≤ 2 ^ k) :
    (h ≠ t ∧ (h ^^^ t) &&& (2 ^ k - 1) = 0) ↔ sub32 t h = 2 ^ k := by
  have hE : (2 : Nat) ^ k ∣ M32 := by
    rw [M32_eq_pow]
    exact pow_dvd_pow 2 hk
  have ht' : t = (h + sub32 t h) % M32 := sub32_elim t h ht hh
  have hmod : (h % 2 ^ k = t % 2 ^ k) ↔ (2 ^ k ∣ sub32 t h) := by
    have h1 : t % 2 ^ k = (h + sub32 t h) % 2 ^ k := by
      conv_lhs => rw [ht']
      exact Nat.mod_mod_of_dvd _ hE
    rw [h1]
    have h2 := Nat.modEq_iff_dvd' (n := 2 ^ k) (Nat.le_add_right h (sub32 t h))
    simpa [Nat.ModEq, Nat.add_sub_cancel_left] using h2
  rw [masked_xor_eq_zero_iff]
  constructor
  · rintro ⟨hne, hmk⟩
    have hdvd := hmod.mp hmk
    have hpos : 0 < sub32 t h := by
      rcases Nat.eq_zero_or_pos (sub32 t h) with h0 | h0
      · exact absurd ((sub32_eq_zero_iff t h ht hh).mp h0).symm hne
      · exact h0
    exact Nat.le_antisymm hd (Nat.le_of_dvd hpos hdvd)
  · intro hEq
    refine ⟨fun hht => ?_, hmod.mpr (hEq ▸ dvd_refl _)⟩
    have : sub32 t h = 0 := (sub32_eq_zero_iff t h ht hh).mpr hht.symm
    have := Nat.two_pow_pos k
    omega

theorem is_full_preserves (q : SubmissionQueue) :
    ((q.is_full).2).local_tail = q.local_tail ∧
    ((q.is_full).2).ring_mask = q.ring_mask ∧
    ((q.is_full).2).sces = q.sces ∧
    ((q.is_full).2).k_head = q.k_head := by
  unfold SubmissionQueue.is_full SubmissionQueue.headFn SubmissionQueue.refresh_head
  by_cases hc : q.cached_head ≠ q.local_tail ∧
      (q.cached_head ^^^ q.local_tail) &&& q.ring_mask = 0 <;>
    simp [hc]

theorem is_full_val (q : SubmissionQueue) :
    (q.is_full).1 = true ↔
      ((q.headFn).1 ≠ q.local_tail ∧
        ((q.headFn).1 ^^^ q.local_tail) &&& q.ring_mask = 0) := by
  unfold SubmissionQueue.is_full SubmissionQueue.headFn SubmissionQueue.refresh_head
  by_cases hc : q.cached_head ≠ q.local_tail ∧
      (q.cached_head ^^^ q.local_tail) &&& q.ring_mask = 0 <;>
    simp [hc]

theorem is_full_val_pos (q : SubmissionQueue)
    (hc : q.cached_head ≠ q.local_tail ∧
      (q.cached_head ^^^ q.local_tail) &&& q.ring_mask = 0) :
    ((q.is_full).1 = true ↔
      (q.k_head ≠ q.local_tail ∧
        (q.k_head ^^^ q.local_tail) &&& q.ring_mask = 0)) ∧
    (q.headFn).1 = q.k_head := by
  unfold SubmissionQueue.is_full SubmissionQueue.headFn SubmissionQueue.refresh_head
  simp [hc]

theorem is_full_val_neg (q : SubmissionQueue)
    (hc : ¬(q.cached_head ≠ q.local_tail ∧
      (q.cached_head ^^^ q.local_tail) &&& q.ring_mask = 0)) :
    (q.is_full).1 = false ∧ (q.headFn).1 = q.cached_head := by
  unfold SubmissionQueue.is_full SubmissionQueue.headFn SubmissionQueue.refresh_head
  simp only [hc, if_neg, ite_false]
  constructor
  · rw [Bool.and_eq_false_iff]
    by_cases h1 : q.cached_head = q.local_tail
    · left
      simp [h1]
    · right
      simp only [decide_eq_false_iff_not]
      intro h2
      exact hc ⟨h1, h2⟩
  · trivial

theorem pending_submissions_val (q : SubmissionQueue) :
    (q.pending_submissions).1 = sub32 q.local_tail q.k_head := rfl

/-- Claim C2: in a submission-queue state whose pending count is at most
`ring_entries` (with the cached head a valid past value of the kernel
head), `is_full` returns `true` exactly when `head != tail` and
`(head XOR tail) & ring_mask == 0`, which holds exactly when
`pending_submissions = ring_entries = 2^k`; and in that state
`submit_with` returns `QueueFull` without invoking the fill closure (its
result does not depend on the closure at all). -/
theorem submission_queue_full_iff (q : SubmissionQueue) (k : Nat)
    (hmask : q.ring_mask = 2 ^ k - 1) (hk : k ≤ 32)
    (hh : q.k_head < M32) (hc : q.cached_head < M32) (ht : q.local_tail < M32)
    (hwin : sub32 q.local_tail q.cached_head ≤ 2 ^ k)
    (hbetween : sub32 q.k_head q.cached_head ≤ sub32 q.local_tail q.cached_head) :
    ((q.is_full).1 = true ↔ (q.pending_submissions).1 = 2 ^ k) ∧
    ((q.is_full).1 = true ↔
      ((q.headFn).1 ≠ q.local_tail ∧
        ((q.headFn).1 ^^^ q.local_tail) &&& q.ring_mask = 0)) ∧
    ((q.pending_submissions).1 = 2 ^ k →
      ∀ (E : Type) (f : SubmissionEntry → Except E SubmissionEntry),
        q.submit_with f = (.error .QueueFull, (q.is_full).2)) := by
  have hsplit : sub32 q.local_tail q.k_head =
      sub32 q.local_tail q.cached_head - sub32 q.k_head q.cached_head :=
    sub32_split q.local_tail q.k_head q.cached_head ht hh hc hbetween
  have hdreal_le : sub32 q.local_tail q.k_head ≤ 2 ^ k := by omega
  have main : (q.is_full).1 = true ↔ (q.pending_submissions).1 = 2 ^ k := by
    rw [pending_submissions_val]
    by_cases hcheap : q.cached_head ≠ q.local_tail ∧
        (q.cached_head ^^^ q.local_tail) &&& q.ring_mask = 0
    · rw [(is_full_val_pos q hcheap).1, hmask]
      exact ring_full_iff q.k_head q.local_tail k hh ht hk hdreal_le
    · rw [(is_full_val_neg q hcheap).1]
      simp only [Bool.false_eq_true, false_iff]
      intro hEq
      have hclose : sub32 q.local_tail q.cached_head = 2 ^ k := by omega
      have := (ring_full_iff q.cached_head q.local_tail k hc ht hk hwin).mpr hclose
      rw [hmask] at hcheap
      exact hcheap this
  refine ⟨main, is_full_val q, ?_⟩
  intro hp E f
  have hfull : (q.is_full).1 = true := main.mpr hp
  have hq : q.is_full = (true, (q.is_full).2) := by
    conv_lhs => rw [show q.is_full = ((q.is_full).1, (q.is_full).2) from rfl]
    rw [hfull]
  rw [SubmissionQueue.submit_with, hq]
  rfl

theorem submission_queue_full_iff_witness :
    (qFull.is_full).1 = true ↔ (qFull.pending_submissions).1 = 2 ^ 2 :=
  (submission_queue_full_iff qFull 2 (by decide) (by decide) (by decide)
    (by decide) (by decide) (by decide) (by decide)).1

/-- Claim C3: on a non-full submission queue, `submit_with` zeroes the SQE
at index `local_tail & ring_mask`, invokes the caller's fill closure on
the zeroed entry (the slot ends up holding exactly what the closure makes
of the cleared entry), and on closure success increments `local_tail` by
one in wrapping 32-bit arithmetic; on closure failure the error surfaces
as `FillError` and `local_tail` is not incremented. -/
theorem submit_with_not_full (q : SubmissionQueue) (E : Type)
    (f : SubmissionEntry → Except E SubmissionEntry)
    (hnf : (q.is_full).1 = false) :
    (∀ entry, f SubmissionEntry.clearEntry = .ok entry →
      (q.submit_with f).1 = .ok () ∧
      ((q.submit_with f).2).sces =
        q.sces.set (q.local_tail &&& q.ring_mask) entry ∧
      ((q.submit_with f).2).local_tail = add32 q.local_tail 1) ∧
    (∀ err, f SubmissionEntry.clearEntry = .error err →
      (q.submit_with f).1 = .error (.FillError err) ∧
      ((q.submit_with f).2).sces =
        q.sces.set (q.local_tail &&& q.ring_mask) SubmissionEntry.clearEntry ∧
      ((q.submit_with f).2).local_tail = q.local_tail) := by
  have hq : q.is_full = (false, (q.is_full).2) := by
    conv_lhs => rw [show q.is_full = ((q.is_full).1, (q.is_full).2) from rfl]
    rw [hnf]
  obtain ⟨hlt, hrm, hsc, hkh⟩ := is_full_preserves q
  constructor
  · intro entry hf
    rw [SubmissionQueue.submit_with, hq]
    simp [hf, hlt, hrm, hsc]
  · intro err hf
    rw [SubmissionQueue.submit_with, hq]
    simp [hf, hlt, hrm, hsc]

theorem submit_with_not_full_witness :
    (qEmpty.submit_with fill42).1 = .ok () ∧
    ((qEmpty.submit_with fill42).2).sces =
      qEmpty.sces.set (qEmpty.local_tail &&& qEmpty.ring_mask) entry42 ∧
    ((qEmpty.submit_with fill42).2).local_tail = add32 qEmpty.local_tail 1 :=
  (submit_with_not_full qEmpty Unit fill42 (by decide)).1 entry42 rfl

/-- Claim C9: when the submission queue is full, each of
`queue_async_read`, `queue_async_write` and `queue_async_poll` fails with
the I/O error `"submission queue full"` and leaves the reactor state
unchanged apart from the cached-head refresh performed by `is_full`: the
returned state keeps `cs` (so `active_wait` is not incremented) and the
submission queue's `local_tail` is not advanced. -/
theorem queue_async_full_unchanged (s : ReactorInner) (fd : Int)
    (offset iovAddr iovLen ud pollFlags : Nat)
    (hfull : (s.sq.is_full).1 = true) :
    s.queue_async_read fd offset iovAddr iovLen ud =
      (.error "submission queue full", { s with sq := (s.sq.is_full).2 }) ∧
    s.queue_async_write fd offset iovAddr iovLen ud =
      (.error "submission queue full", { s with sq := (s.sq.is_full).2 }) ∧
    s.queue_async_poll fd pollFlags ud =
      (.error "submission queue full", { s with sq := (s.sq.is_full).2 }) ∧
    ({ s with sq := (s.sq.is_full).2 } : ReactorInner).cs.active_wait =
      s.cs.active_wait ∧
    ((s.sq.is_full).2).local_tail = s.sq.local_tail := by
  have hq : s.sq.is_full = (true, (s.sq.is_full).2) := by
    conv_lhs => rw [show s.sq.is_full = ((s.sq.is_full).1, (s.sq.is_full).2) from rfl]
    rw [hfull]
  have hsub : ∀ (f : SubmissionEntry → Except Empty SubmissionEntry),
      s.sq.submit_with f = (.error .QueueFull, (s.sq.is_full).2) := by
    intro f
    rw [SubmissionQueue.submit_with, hq]
    rfl
  refine ⟨?_, ?_, ?_, rfl, (is_full_preserves s.sq).1⟩
  · rw [ReactorInner.queue_async_read, hsub]
    rfl
  · rw [ReactorInner.queue_async_write, hsub]
    rfl
  · rw [ReactorInner.queue_async_poll, hsub]
    rfl

theorem queue_async_full_unchanged_witness :
    innerFull.queue_async_read 3 0 0 0 8 =
      (.error "submission queue full",
        { innerFull with sq := (innerFull.sq.is_full).2 }) :=
  (queue_async_full_unchanged innerFull 3 0 0 0 8 1 (by decide)).1

/-- Claim C7: for every `IoPriority` value, decoding its 16-bit encoding
recovers the value (`IoPriority::try_from(p.into()) == Some(p)`); the
encoding stores the class in the top 3 bits of the `u16` and the level in
the low bits. -/
theorem ioPriority_roundtrip :
    ∀ p : IoPriority,
      IoPriority.tryFrom p.encode = some p ∧
      p.encode >>> 13 = p.classIndex ∧
      p.encode % 8192 = p.levelBits ∧
      p.encode < 65536 := by
  rintro (_ | l | l | _) <;> first
    | decide
    | (cases l <;> decide)

/-- Claim C10: once a `Registration::poll` has returned `Ready` the boxed
context is taken (`data = none`); from then on every `poll` returns
`NotReady` without panicking, leaves the registration unchanged, and never
returns `Ready` again, whatever the `finished` flag says. -/
theorem registration_poll_after_ready (T : Type) (s : RegState T)
    (cur cur2 : Nat) :
    (s.data = none → Registration.poll s cur = (none, s)) ∧
    (∀ r st, Registration.poll s cur = (some r, st) →
      st.data = none ∧ Registration.poll st cur2 = (none, st)) := by
  constructor
  · intro h
    simp [Registration.poll, h]
  · intro r st h
    unfold Registration.poll at h
    cases hd : s.data with
    | none => simp [hd] at h
    | some d =>
      rw [hd] at h
      by_cases hf : s.finished
      · simp only [hf, if_true, Prod.mk.injEq] at h
        obtain ⟨-, h2⟩ := h
        have hdn : st.data = none := by
          rw [← h2]
        exact ⟨hdn, by simp [Registration.poll, hdn]⟩
      · simp [hf] at h

theorem registration_poll_after_ready_witness :
    Registration.poll (T := Nat)
        ⟨⟨7, 0⟩, true, none, none⟩ 5 = (none, ⟨⟨7, 0⟩, true, none, none⟩) :=
  (registration_poll_after_ready Nat ⟨⟨7, 0⟩, true, none, none⟩ 5 0).1 rfl

/-- Claim C8: every `user_data` successfully produced by
`into_user_data` is nonzero and even (the assertion guarantees it), the
internal sentinels are the odd values `TIMER = 1` and `PARK = 3`, and
hence task-operation `user_data` values never collide with sentinels. -/
theorem user_data_even_sentinels_odd (p u : Nat)
    (h : RawRegistration.into_user_data p = some u) :
    (u ≠ 0 ∧ u &&& 0x1 = 0 ∧ u ≠ TIMER ∧ u ≠ PARK) ∧
    TIMER = 1 ∧ PARK = 3 ∧ TIMER &&& 0x1 = 1 ∧ PARK &&& 0x1 = 1 := by
  unfold RawRegistration.into_user_data at h
  split at h
  case isTrue hc =>
    obtain ⟨hne, heven⟩ := hc
    cases h
    refine ⟨⟨hne, heven, ?_, ?_⟩, rfl, rfl, rfl, rfl⟩
    · intro hp
      rw [hp] at heven
      exact absurd heven (by decide)
    · intro hp
      rw [hp] at heven
      exact absurd heven (by decide)
  case isFalse => exact absurd h (by simp)

theorem user_data_even_sentinels_odd_witness :
    ((8 : Nat) ≠ 0 ∧ (8 : Nat) &&& 0x1 = 0 ∧ (8 : Nat) ≠ TIMER ∧ (8 : Nat) ≠ PARK) ∧
    TIMER = 1 ∧ PARK = 3 ∧ TIMER &&& 0x1 = 1 ∧ PARK &&& 0x1 = 1 :=
  user_data_even_sentinels_odd 8 8 (by decide)

/-- Claim C4: `handle_completion` behaves exactly as the specification
describes: `user_data = 0` is ignored; otherwise `active_wait` is
decremented and then `user_data = 1` (TIMER) sets `requeue_timer` and
`timer_pending`, `user_data = 3` (PARK) drains the park pipe and sets
`requeue_park`, any other odd value is fatal, and any even nonzero value
notifies the corresponding registration with the result. -/
theorem handle_completion_matches_spec (s : CompletionState) (ud : Nat)
    (r : UringResult) :
    CompletionState.handle_completion s ud r = handleCompletionSpec s ud r := by
  unfold CompletionState.handle_completion handleCompletionSpec TIMER PARK
  rcases eq_or_ne ud 0 with h0 | h0
  · simp [h0]
  · simp only [h0, if_neg, ite_false, Nat.and_one_is_mod]
    by_cases h1 : ud = 1
    · simp [h1]
    · by_cases h3 : ud = 3
      · simp [h3]
      · rcases Nat.mod_two_eq_zero_or_one ud with he | ho
        · simp [he, h1, h3]
        · simp [ho, h1, h3]

/-- Claim C1 (evidence): with the completion result `r = -11` stored in a
finished registration, polling `AsyncRead` and `AsyncWrite` yields an OS
error with errno `-r = 11`, but polling `AsyncPoll` passes the raw result
to `io::Error::from_raw_os_error` without negation and yields errno
`-11`, not `11`. -/
theorem asyncPoll_errno_not_negated :
    (asyncRead_poll (T := Unit) (F := Unit)
        (.Pending ⟨⟨-11, 0⟩, true, none, some ⟨0, 0, (), ()⟩⟩) 0).1 =
      .opError (.rawOs 11) () () ∧
    (asyncWrite_poll (T := Unit) (F := Unit)
        (.Pending ⟨⟨-11, 0⟩, true, none, some ⟨0, 0, (), ()⟩⟩) 0).1 =
      .opError (.rawOs 11) () () ∧
    (asyncPoll_poll ⟨3, true, 1, ⟨⟨-11, 0⟩, true, none, some ()⟩⟩ 0 (.ok ())).1 =
      .streamError (.rawOs (-11)) ∧
    ((-11 : Int) ≠ (11 : Int)) := by
  refine ⟨rfl, rfl, rfl, by decide⟩


theorem handle_completion_preserves_park (s : CompletionState) (ud : Nat)
    (r : UringResult) (s' : CompletionState) (evs : List Event)
    (h : s.handle_completion ud r = some (s', evs)) :
    s'.park_pending = s.park_pending := by
  unfold CompletionState.handle_completion at h
  by_cases h0 : ud = 0
  · simp only [h0, if_true, ite_true] at h
    cases h
    rfl
  · simp only [h0, if_false, ite_false] at h
    by_cases he : ud &&& 0x1 = 0
    · simp only [he, if_true, ite_true] at h
      cases h
      rfl
    · simp only [he, if_false, ite_false] at h
      by_cases h1 : ud = TIMER
      · simp only [h1, if_true, ite_true] at h
        cases h
        rfl
      · simp only [h1, if_false, ite_false] at h
        by_cases h3 : ud = PARK
        · simp only [h3, if_true, ite_true] at h
          cases h
          rfl
        · simp only [h3, if_false, ite_false] at h
          cases h

theorem runCompletions_preserves_park (l : List CompletionEntry) :
    ∀ (cs cs' : CompletionState) (evs : List Event),
      runCompletions cs l = some (cs', evs) →
      cs'.park_pending = cs.park_pending := by
  induction l with
  | nil =>
    intro cs cs' evs h
    unfold runCompletions at h
    cases h
    rfl
  | cons c rest ih =>
    intro cs cs' evs h
    cases hh : cs.handle_completion c.user_data ⟨c.res, c.flags⟩ with
    | none =>
      simp only [runCompletions, hh] at h
      exact Option.noConfusion h
    | some p =>
      obtain ⟨cs1, evs1⟩ := p
      cases hr : runCompletions cs1 rest with
      | none =>
        simp only [runCompletions, hh, hr] at h
        exact Option.noConfusion h
      | some p2 =>
        obtain ⟨cs2, evs2⟩ := p2
        simp only [runCompletions, hh, hr, Option.some.injEq, Prod.mk.injEq] at h
        rw [← h.1]
        exact (ih cs1 cs2 evs2 hr).trans
          (handle_completion_preserves_park cs c.user_data ⟨c.res, c.flags⟩ cs1 evs1 hh)

theorem park_inner_nowait (s : ReactorInner) (wait0 : Bool) (timeout : Option Nat)
    (cqes1 cqes2 : List CompletionEntry) (enterOk : Bool)
    (hnw : ∀ cs1 evs, runCompletions s.cs cqes1 = some (cs1, evs) →
      (if cs1.park_pending then false
       else if decide (cqes1 ≠ []) then false else wait0) = false) :
    (∀ e ∈ (s.park_inner wait0 timeout cqes1 cqes2 enterOk).2,
      e.min_complete = 0 ∧ e.flags = 0) ∧
    (sub32 s.sq.local_tail s.sq.k_head = 0 →
      (s.park_inner wait0 timeout cqes1 cqes2 enterOk).2 = []) := by
  unfold ReactorInner.park_inner
  cases h1 : runCompletions s.cs cqes1 with
  | none => simp
  | some p =>
    obtain ⟨cs1, evs1⟩ := p
    have hw := hnw cs1 evs1 h1
    simp only [h1, hw, Bool.false_eq_true, if_false, ite_false, false_and, Bool.false_and]
    by_cases hp : s.sq.pending_submissions.1 = 0
    · simp [hp]
    · simp only [hp, and_true, ite_false, if_false, false_and]
      constructor
      · intro e he
        split at he
        · split at he <;> (simp at he; simp [he])
        · simp at he
          simp [he]
      · intro h0
        exact absurd (by rw [pending_submissions_val]; exact h0) hp

/-- Claim C5: `park_timeout(0)` runs `park_inner(false, None)`; during the
call every `io_uring_enter` is submit-only (`min_complete = 0`, no
GETEVENTS flag), and when nothing is pending in the submission queue no
enter call is made at all. -/
theorem park_timeout_zero_no_getevents (s : ReactorInner)
    (cqes1 cqes2 : List CompletionEntry) (enterOk : Bool) :
    (∀ e ∈ (s.park_timeout 0 cqes1 cqes2 enterOk).2,
      e.min_complete = 0 ∧ e.flags = 0) ∧
    (sub32 s.sq.local_tail s.sq.k_head = 0 →
      (s.park_timeout 0 cqes1 cqes2 enterOk).2 = []) := by
  have heq : s.park_timeout 0 cqes1 cqes2 enterOk =
      s.park_inner false none cqes1 cqes2 enterOk := rfl
  rw [heq]
  exact park_inner_nowait s false none cqes1 cqes2 enterOk
    (fun cs1 evs _ => by by_cases hpp : cs1.park_pending <;> simp [hpp])

theorem park_timeout_zero_no_getevents_witness :
    (⟨4, 0, 0⟩ : EnterCall).min_complete = 0 ∧
    (⟨4, 0, 0⟩ : EnterCall).flags = 0 :=
  (park_timeout_zero_no_getevents innerFull [] [] true).1 ⟨4, 0, 0⟩ (by decide)

/-- Claim C6: if `park()` drains completions at its start (`cqes1` is
nonempty) or the park `pending` flag is observed `true` (an unpark
happened before the park), `park` never calls `io_uring_enter` with
`min_complete > 0` or with the GETEVENTS flag: it returns without
sleeping. -/
theorem park_no_wait_after_completions_or_unpark (s : ReactorInner)
    (cqes1 cqes2 : List CompletionEntry) (enterOk : Bool)
    (h : cqes1 ≠ [] ∨ s.cs.park_pending = true) :
    ∀ e ∈ (s.park cqes1 cqes2 enterOk).2,
      e.min_complete = 0 ∧ e.flags = 0 := by
  refine (park_inner_nowait s true none cqes1 cqes2 enterOk ?_).1
  intro cs1 evs hrc
  rcases h with hne | hpp
  · simp [hne]
  · have hpp1 : cs1.park_pending = true :=
      (runCompletions_preserves_park cqes1 s.cs cs1 evs hrc).trans hpp
    simp [hpp1]

theorem park_no_wait_after_completions_or_unpark_witness :
    (⟨2, 0, 0⟩ : EnterCall).min_complete = 0 ∧
    (⟨2, 0, 0⟩ : EnterCall).flags = 0 :=
  park_no_wait_after_completions_or_unpark innerUnparked [] [] true
    (Or.inr rfl) ⟨2, 0, 0⟩ (by decide)
